import Mathlib

/-!
Verification of the ledger-driven inventory system (`src/app.py`).

The embedding models the SQLite tables as lists inside a `State` structure and
each HTTP handler body as a function `State → Except Err (State × response)`.
Quantities are `REAL` in the schema and validated positive (`Field(gt=0)`) at
the request boundary; every handler manipulates them only through addition,
subtraction, `min`, and order comparisons, so they are embedded as exact
integers `ℤ` (exact arithmetic; no claim below depends on fractional or
floating-point behaviour), and the pydantic `gt=0` validation is modelled by
an explicit `INVALID_QTY` guard at the start of the handlers that declare
it.  Row ids are `uuid4()` strings in
the source; they are embedded as sequentially assigned naturals (`next_lot`,
`next_res`, `next_item` counters), which preserves freshness and additionally
records creation order.  Timestamps never influence any query in `app.py`
(no `ORDER BY timestamp`), so they are omitted.
-/

namespace Inventory

/-- `qc_status` column: CHECK(qc_status IN ('APPROVED', 'QUARANTINE', 'REJECTED')). -/
inductive QcStatus where
  | APPROVED
  | QUARANTINE
  | REJECTED
deriving DecidableEq, Repr

/-- `txn_type` column: CHECK(txn_type IN ('RECEIVE', 'RESERVE', 'UNRESERVE', 'ISSUE')). -/
inductive TxnType where
  | RECEIVE
  | RESERVE
  | UNRESERVE
  | ISSUE
deriving DecidableEq, Repr

/-- reservation `status` column: CHECK(status IN ('OPEN', 'ISSUED', 'CANCELLED')). -/
inductive ResStatus where
  | OPEN
  | ISSUED
  | CANCELLED
deriving DecidableEq, Repr

/-- `ErrorCode` class of `app.py` (plus DUPLICATE_ITEM_CODE and LOT_NOT_FOUND,
which appear inline in the handlers). -/
inductive Err where
  | INSUFFICIENT_STOCK
  | NO_QC_APPROVED_LOT
  | RESERVATION_NOT_FOUND
  | ITEM_NOT_FOUND
  | DUPLICATE_LOT_CODE
  | INVALID_QTY
  | RESERVATION_ALREADY_ISSUED
  | LOT_NOT_FOUND
  | DUPLICATE_ITEM_CODE
deriving DecidableEq, Repr

/-- Row of the `items` table. -/
structure Item where
  id : Nat
  code : String
  name : String
  qc_required : Bool
deriving DecidableEq, Repr

/-- Row of the `inventory_lots` table.  `id` is the creation sequence number. -/
structure Lot where
  id : Nat
  item_id : Nat
  lot_code : String
  received_qty : ℤ
  qc_status : QcStatus
deriving DecidableEq, Repr

/-- Row of the `inventory_ledger` table (timestamp omitted, see module header). -/
structure Entry where
  item_id : Nat
  lot_id : Option Nat
  txn_type : TxnType
  qty : ℤ
  reservation_id : Option Nat
deriving DecidableEq, Repr

/-- Row of the `reservations` table. -/
structure Reservation where
  id : Nat
  item_id : Nat
  qty : ℤ
  status : ResStatus
deriving DecidableEq, Repr

/-- The whole database.  Lists are kept in insertion order. -/
structure State where
  items : List Item
  lots : List Lot
  ledger : List Entry
  reservations : List Reservation
  next_lot : Nat
  next_res : Nat
  next_item : Nat
deriving DecidableEq, Repr

/-- The empty database produced by `init_db`. -/
def initState : State := ⟨[], [], [], [], 0, 0, 0⟩

instance {ε α : Type} [DecidableEq ε] [DecidableEq α] : DecidableEq (Except ε α)
  | .error e, .error e' =>
    if h : e = e' then .isTrue (by rw [h]) else .isFalse (by simp [h])
  | .error _, .ok _ => .isFalse (by simp)
  | .ok _, .error _ => .isFalse (by simp)
  | .ok a, .ok a' =>
    if h : a = a' then .isTrue (by rw [h]) else .isFalse (by simp [h])

/-- `StockSummary` pydantic model. -/
structure StockSummary where
  on_hand : ℤ
  reserved : ℤ
  available : ℤ
deriving DecidableEq, Repr

/-- Shape of the SQL `SELECT COALESCE(SUM(f), 0) ... WHERE p` aggregates. -/
def qsum {α : Type} (p : α → Bool) (f : α → ℤ) (l : List α) : ℤ :=
  ((l.filter p).map f).sum

/-- Sum of `qty` over RECEIVE ledger rows of an item
(first aggregate of the `calculate_stock` query). -/
def sumReceived (item_id : Nat) (ledger : List Entry) : ℤ :=
  qsum (fun e => e.item_id == item_id && e.txn_type == TxnType.RECEIVE) (·.qty) ledger

/-- Sum of `qty` over ISSUE ledger rows of an item
(second aggregate of the `calculate_stock` query). -/
def sumIssued (item_id : Nat) (ledger : List Entry) : ℤ :=
  qsum (fun e => e.item_id == item_id && e.txn_type == TxnType.ISSUE) (·.qty) ledger

/-- Sum of `qty` over OPEN reservations of an item
(the `reserved` query of `calculate_stock`). -/
def openQty (item_id : Nat) (rs : List Reservation) : ℤ :=
  qsum (fun r => r.item_id == item_id && r.status == ResStatus.OPEN) (·.qty) rs

/-- `calculate_stock(conn, item_id)`: on_hand = received − issued,
reserved = Σ OPEN reservations, available = on_hand − reserved. -/
def calculate_stock (s : State) (item_id : Nat) : StockSummary :=
  let received := sumReceived item_id s.ledger
  let issued := sumIssued item_id s.ledger
  let on_hand := received - issued
  let reserved := openQty item_id s.reservations
  ⟨on_hand, reserved, on_hand - reserved⟩

/-- One row of the `get_available_lots` result set. -/
structure LotView where
  id : Nat
  lot_code : String
  received_qty : ℤ
  issued_qty : ℤ
deriving DecidableEq, Repr

/-- `lot_dict['available'] = received_qty - issued_qty`. -/
def LotView.avail (v : LotView) : ℤ := v.received_qty - v.issued_qty

/-- SQLite compares TEXT with memcmp on the UTF-8 bytes; on the code-point
keys this is lexicographic order with the shorter prefix first. -/
def keyLe : List Nat → List Nat → Bool
  | [], _ => true
  | _ :: _, [] => false
  | a :: as, b :: bs => if a < b then true else if a = b then keyLe as bs else false

/-- `ORDER BY l.lot_code ASC` comparison on lot codes. -/
def codeLe (a b : String) : Bool := keyLe (a.data.map Char.toNat) (b.data.map Char.toNat)

/-- Ordering relation on result rows used by `ORDER BY l.lot_code ASC`. -/
def viewLe (a b : LotView) : Prop := codeLe a.lot_code b.lot_code = true

instance : DecidableRel viewLe := fun a b => by unfold viewLe; infer_instance

/-- Per-lot ISSUE aggregate of the `get_available_lots` query
(`SUM(CASE WHEN led.txn_type = 'ISSUE' THEN led.qty ELSE 0 END)` grouped by lot). -/
def lotIssued (lot_id : Nat) (ledger : List Entry) : ℤ :=
  qsum (fun e => e.lot_id == some lot_id && e.txn_type == TxnType.ISSUE) (·.qty) ledger

/-- `get_available_lots(conn, item_id, required_qty)`: APPROVED lots of the item
with strictly positive availability (`HAVING ... > 0`), ordered by
`lot_code ASC`.  The `required_qty` argument is unused in the source query. -/
def get_available_lots (s : State) (item_id : Nat) : List LotView :=
  let rows :=
    (s.lots.filter fun l => l.item_id == item_id && l.qc_status == QcStatus.APPROVED).map
      fun l => LotView.mk l.id l.lot_code l.received_qty (lotIssued l.id s.ledger)
  List.insertionSort viewLe (rows.filter fun v => decide (0 < v.avail))

/-- `get_item`: `SELECT * FROM items WHERE id = ?`. -/
def findItem (s : State) (item_id : Nat) : Option Item :=
  s.items.find? fun i => i.id == item_id

/-- Response of `POST /inventory/receive`. -/
structure ReceiveResp where
  lot_id : Nat
  qc_status : QcStatus
deriving DecidableEq, Repr

/-- `receive_inventory`: validate item, set initial QC status from
`qc_required`, reject a duplicate `lot_code` (global UNIQUE constraint, with
rollback), else insert the lot and one RECEIVE ledger row atomically. -/
def receive_inventory (s : State) (item_id : Nat) (lot_code : String) (qty : ℤ) :
    Except Err (State × ReceiveResp) :=
  if qty ≤ 0 then .error .INVALID_QTY else
  match findItem s item_id with
  | none => .error .ITEM_NOT_FOUND
  | some item =>
    let qc_status := if item.qc_required then QcStatus.QUARANTINE else QcStatus.APPROVED
    if s.lots.any fun l => l.lot_code == lot_code then .error .DUPLICATE_LOT_CODE
    else
      let lot : Lot := ⟨s.next_lot, item_id, lot_code, qty, qc_status⟩
      let entry : Entry := ⟨item_id, some s.next_lot, .RECEIVE, qty, none⟩
      .ok ({ s with lots := s.lots ++ [lot], ledger := s.ledger ++ [entry],
                    next_lot := s.next_lot + 1 },
           ⟨s.next_lot, qc_status⟩)

/-- `reserve_inventory`: validate item, fail INSUFFICIENT_STOCK when
`available < qty`, fail NO_QC_APPROVED_LOT when `get_available_lots` is empty,
else insert an OPEN reservation and one RESERVE ledger row atomically. -/
def reserve_inventory (s : State) (item_id : Nat) (qty : ℤ) :
    Except Err (State × Nat) :=
  if qty ≤ 0 then .error .INVALID_QTY else
  match findItem s item_id with
  | none => .error .ITEM_NOT_FOUND
  | some _ =>
    let summary := calculate_stock s item_id
    if summary.available < qty then .error .INSUFFICIENT_STOCK
    else
      let lots := get_available_lots s item_id
      if lots.isEmpty then .error .NO_QC_APPROVED_LOT
      else
        let r : Reservation := ⟨s.next_res, item_id, qty, .OPEN⟩
        let e : Entry := ⟨item_id, none, .RESERVE, qty, some s.next_res⟩
        .ok ({ s with reservations := s.reservations ++ [r],
                      ledger := s.ledger ++ [e],
                      next_res := s.next_res + 1 },
             s.next_res)

/-- One element of `lots_issued`: (lot_id, lot_code, qty). -/
structure LotIssue where
  lot_id : Nat
  lot_code : String
  qty : ℤ
deriving DecidableEq, Repr

/-- The `for lot in lots` issuing loop: allocate `min(lot['available'],
remaining_qty)` from each lot in order, breaking once remaining ≤ 0. -/
def allocate : List LotView → ℤ → List LotIssue
  | [], _ => []
  | v :: rest, remaining =>
    if remaining ≤ 0 then []
    else
      let qty_from_lot := min v.avail remaining
      ⟨v.id, v.lot_code, qty_from_lot⟩ :: allocate rest (remaining - qty_from_lot)

/-- Response of `POST /inventory/issue`. -/
structure IssueResp where
  reservation_id : Nat
  item_id : Nat
  qty : ℤ
  lots_issued : List LotIssue
deriving DecidableEq, Repr

/-- `issue_inventory`: load the reservation, require status OPEN, require a
non-empty approved-lot set and approved coverage of the reserved quantity,
then append one ISSUE row per allocated lot, mark the reservation ISSUED and
append one UNRESERVE row for the full quantity, atomically. -/
def issue_inventory (s : State) (reservation_id : Nat) :
    Except Err (State × IssueResp) :=
  match s.reservations.find? (fun r => r.id == reservation_id) with
  | none => .error .RESERVATION_NOT_FOUND
  | some r =>
    if r.status ≠ .OPEN then .error .RESERVATION_ALREADY_ISSUED
    else
      let lots := get_available_lots s r.item_id
      if lots.isEmpty then .error .NO_QC_APPROVED_LOT
      else if (lots.map LotView.avail).sum < r.qty then .error .INSUFFICIENT_STOCK
      else
        let lots_issued := allocate lots r.qty
        let issueRows := lots_issued.map fun a =>
          Entry.mk r.item_id (some a.lot_id) .ISSUE a.qty (some reservation_id)
        let unres : Entry := ⟨r.item_id, none, .UNRESERVE, r.qty, some reservation_id⟩
        .ok ({ s with
                ledger := s.ledger ++ issueRows ++ [unres],
                reservations := s.reservations.map fun x =>
                  if x.id == reservation_id then { x with status := .ISSUED } else x },
             ⟨reservation_id, r.item_id, r.qty, lots_issued⟩)

/-- The `qc_status` path parameter is `Literal["APPROVED", "REJECTED"]`. -/
inductive QcDecision where
  | APPROVED
  | REJECTED
deriving DecidableEq, Repr

/-- Status written by `update_lot_qc_status`. -/
def QcDecision.toStatus : QcDecision → QcStatus
  | .APPROVED => .APPROVED
  | .REJECTED => .REJECTED

/-- `update_lot_qc_status`: 404 when the lot is absent, otherwise overwrite
`qc_status` with the requested value — no check of the current status. -/
def update_lot_qc_status (s : State) (lot_id : Nat) (d : QcDecision) :
    Except Err State :=
  if s.lots.any fun l => l.id == lot_id then
    .ok { s with lots := s.lots.map fun l =>
            if l.id == lot_id then { l with qc_status := d.toStatus } else l }
  else .error .LOT_NOT_FOUND

/-- `create_item`: reject a duplicate item code (UNIQUE constraint), else
insert the item. -/
def create_item (s : State) (code name : String) (qc_required : Bool) :
    Except Err (State × Nat) :=
  if s.items.any fun i => i.code == code then .error .DUPLICATE_ITEM_CODE
  else
    .ok ({ s with items := s.items ++ [⟨s.next_item, code, name, qc_required⟩],
                  next_item := s.next_item + 1 },
         s.next_item)

/-- One API call against the system. -/
inductive Op where
  | createItem (code name : String) (qc_required : Bool)
  | receive (item_id : Nat) (lot_code : String) (qty : ℤ)
  | reserve (item_id : Nat) (qty : ℤ)
  | issue (reservation_id : Nat)
  | setQc (lot_id : Nat) (d : QcDecision)
deriving DecidableEq, Repr

/-- Apply one call; a failed call rolls back, leaving the state unchanged. -/
def stepOr (s : State) (op : Op) : State :=
  match op with
  | .createItem c n q => match create_item s c n q with
    | .ok (s', _) => s' | .error _ => s
  | .receive i c q => match receive_inventory s i c q with
    | .ok (s', _) => s' | .error _ => s
  | .reserve i q => match reserve_inventory s i q with
    | .ok (s', _) => s' | .error _ => s
  | .issue r => match issue_inventory s r with
    | .ok (s', _) => s' | .error _ => s
  | .setQc l d => match update_lot_qc_status s l d with
    | .ok s' => s' | .error _ => s

/-- Run a sequence of calls from the empty database. -/
def runOps (ops : List Op) : State := ops.foldl stepOr initState

/-! ### Concrete scenario states used by the testable properties -/

/-- Item 0 (`qc_required=false`), receive 100 into lot `L1`, reserve 30. -/
def simpleState : State :=
  runOps [.createItem "W" "widget" false, .receive 0 "L1" 100, .reserve 0 30]

/-- `simpleState` after issuing reservation 0. -/
def simpleIssued : State := stepOr simpleState (.issue 0)

/-- Item 0 (`qc_required=false`) with lots received in order A(30), B(40), C(30)
and an OPEN reservation of 80. -/
def fifoState : State :=
  runOps [.createItem "W" "w" false, .receive 0 "A" 30, .receive 0 "B" 40,
    .receive 0 "C" 30, .reserve 0 80]

/-- Two lots received in creation order `B` then `A` (codes against receipt order). -/
def baState : State :=
  runOps [.createItem "W" "w" false, .receive 0 "B" 1, .receive 0 "A" 1]

/-- QC item with an APPROVED lot of 10 and a QUARANTINE lot of 100. -/
def partialApprovedState : State :=
  runOps [.createItem "Q" "q" true, .receive 0 "L1" 10, .setQc 0 .APPROVED,
    .receive 0 "L2" 100]

/-- QC item that has received 50 units into a (quarantined) lot. -/
def quarState : State := runOps [.createItem "Q" "q" true, .receive 0 "L1" 50]

/-- `quarState` after the QC decision APPROVED on lot 0. -/
def quarApproved : State := stepOr quarState (.setQc 0 .APPROVED)

/-- Two items; item 0 already has a lot with code `L1`. -/
def dupCodeState : State :=
  runOps [.createItem "W" "w" false, .createItem "V" "v" false, .receive 0 "L1" 5]

/-- One item with an APPROVED lot (received without QC). -/
def approvedLotState : State := runOps [.createItem "W" "w" false, .receive 0 "L1" 5]

/-- QC item whose only APPROVED lot (A, 50) is fully issued, plus a
QUARANTINE lot (B, 100). -/
def exhaustedState : State :=
  runOps [.createItem "Q" "q" true, .receive 0 "A" 50, .setQc 0 .APPROVED,
    .reserve 0 50, .issue 0, .receive 0 "B" 100]

/-! ### Aggregate lemmas -/

theorem qsum_nil {α : Type} (p : α → Bool) (f : α → ℤ) : qsum p f [] = 0 := rfl

theorem qsum_cons {α : Type} (p : α → Bool) (f : α → ℤ) (x : α) (l : List α) :
    qsum p f (x :: l) = (if p x then f x else 0) + qsum p f l := by
  simp only [qsum, List.filter_cons]
  split <;> simp

theorem qsum_append {α : Type} (p : α → Bool) (f : α → ℤ) (l₁ l₂ : List α) :
    qsum p f (l₁ ++ l₂) = qsum p f l₁ + qsum p f l₂ := by
  simp [qsum, List.filter_append]

theorem qsum_eq_zero {α : Type} {p : α → Bool} {f : α → ℤ} {l : List α}
    (h : ∀ x ∈ l, p x = false) : qsum p f l = 0 := by
  induction l with
  | nil => rfl
  | cons x xs ih =>
    rw [qsum_cons, h x (List.mem_cons_self x xs), if_neg (by simp)]
    simpa using ih fun y hy => h y (List.mem_cons_of_mem x hy)

theorem qsum_singleton {α : Type} (p : α → Bool) (f : α → ℤ) (x : α) :
    qsum p f [x] = if p x then f x else 0 := by
  rw [qsum_cons, qsum_nil, add_zero]

/-! ### Ordering lemmas for `ORDER BY lot_code ASC` -/

theorem keyLe_total : ∀ a b : List Nat, keyLe a b = true ∨ keyLe b a = true
  | [], _ => Or.inl rfl
  | _ :: _, [] => Or.inr rfl
  | a :: as, b :: bs => by
    rcases Nat.lt_trichotomy a b with h | h | h
    · left; simp [keyLe, h]
    · subst h
      rcases keyLe_total as bs with ih | ih <;> [left; right] <;>
        simp [keyLe, ih]
    · right; simp [keyLe, h]

theorem keyLe_trans : ∀ {a b c : List Nat},
    keyLe a b = true → keyLe b c = true → keyLe a c = true
  | [], _, _, _, _ => rfl
  | _ :: _, [], _, hab, _ => by simp [keyLe] at hab
  | _ :: _, _ :: _, [], _, hbc => by simp [keyLe] at hbc
  | a :: as, b :: bs, c :: cs, hab, hbc => by
    by_cases h1 : a < b
    · by_cases h3 : b < c
      · simp [keyLe, show a < c by omega]
      · by_cases h4 : b = c
        · simp [keyLe, show a < c by omega]
        · simp [keyLe, h3, h4] at hbc
    · by_cases h2 : a = b
      · subst h2
        simp only [keyLe, lt_self_iff_false, if_false, if_pos rfl, ite_true] at hab
        by_cases h3 : a < c
        · simp [keyLe, h3]
        · by_cases h4 : a = c
          · subst h4
            simp only [keyLe, lt_self_iff_false, if_false, if_pos rfl, ite_true] at hbc ⊢
            exact keyLe_trans hab hbc
          · simp [keyLe, h3, h4] at hbc
      · simp [keyLe, h1, h2] at hab

instance : IsTotal LotView viewLe :=
  ⟨fun a b => keyLe_total (a.lot_code.data.map Char.toNat) (b.lot_code.data.map Char.toNat)⟩

instance : IsTrans LotView viewLe := ⟨fun _ _ _ hab hbc => keyLe_trans hab hbc⟩

/-- The result set of `get_available_lots` is sorted by `lot_code ASC`. -/
theorem get_available_lots_sorted (s : State) (item_id : Nat) :
    (get_available_lots s item_id).Pairwise viewLe :=
  List.sorted_insertionSort viewLe _

/-- The result set is, up to the final ORDER BY, the positive-availability
APPROVED rows of the item. -/
theorem get_available_lots_perm (s : State) (item_id : Nat) :
    List.Perm (get_available_lots s item_id)
      (List.filter (fun v => decide (0 < v.avail))
        (List.map
          (fun l => LotView.mk l.id l.lot_code l.received_qty (lotIssued l.id s.ledger))
          (List.filter (fun l => l.item_id == item_id && l.qc_status == QcStatus.APPROVED)
            s.lots))) :=
  List.perm_insertionSort viewLe _

/-- Every returned row has strictly positive availability (`HAVING ... > 0`). -/
theorem mem_get_available_lots_pos {s : State} {item_id : Nat} {v : LotView}
    (h : v ∈ get_available_lots s item_id) : 0 < v.avail := by
  have hv := (get_available_lots_perm s item_id).mem_iff.mp h
  have := List.of_mem_filter hv
  simpa using this

/-- The result set is empty iff every APPROVED lot of the item has
non-positive availability. -/
theorem get_available_lots_eq_nil_iff {s : State} {item_id : Nat} :
    get_available_lots s item_id = [] ↔
      ∀ l ∈ s.lots, l.item_id = item_id → l.qc_status = QcStatus.APPROVED →
        l.received_qty - lotIssued l.id s.ledger ≤ 0 := by
  constructor
  · intro h l hl hitem hqc
    by_contra hpos
    have hmem : (LotView.mk l.id l.lot_code l.received_qty (lotIssued l.id s.ledger)) ∈
        (List.filter (fun v => decide (0 < v.avail))
          (List.map
            (fun l => LotView.mk l.id l.lot_code l.received_qty (lotIssued l.id s.ledger))
            (List.filter (fun l => l.item_id == item_id && l.qc_status == QcStatus.APPROVED)
              s.lots))) := by
      refine List.mem_filter.mpr ⟨List.mem_map.mpr ⟨l, List.mem_filter.mpr ⟨hl, ?_⟩, rfl⟩, ?_⟩
      · simp [hitem, hqc]
      · simpa [LotView.avail] using lt_of_not_ge hpos
    have := ((get_available_lots_perm s item_id).symm.mem_iff.mp hmem)
    simp [h] at this
  · intro h
    have : (List.filter (fun v => decide (0 < v.avail))
        (List.map
          (fun l => LotView.mk l.id l.lot_code l.received_qty (lotIssued l.id s.ledger))
          (List.filter (fun l => l.item_id == item_id && l.qc_status == QcStatus.APPROVED)
            s.lots))) = [] := by
      rw [List.filter_eq_nil_iff]
      rintro v hv
      rcases List.mem_map.mp hv with ⟨l, hl, rfl⟩
      rcases List.mem_filter.mp hl with ⟨hmem, hcond⟩
      simp only [Bool.and_eq_true, beq_iff_eq] at hcond
      have := h l hmem hcond.1 hcond.2
      simp [LotView.avail]
      linarith
    exact List.Perm.eq_nil (this ▸ get_available_lots_perm s item_id)

/-! ### Allocation loop lemmas -/

/-- When the lots cover the requested quantity, the loop issues exactly it. -/
theorem allocate_sum : ∀ (lots : List LotView) (q : ℤ),
    (∀ v ∈ lots, 0 < v.avail) → 0 ≤ q → q ≤ (lots.map LotView.avail).sum →
    ((allocate lots q).map LotIssue.qty).sum = q
  | [], q, _, h0, hle => by
    simp only [List.map_nil, List.sum_nil] at hle
    simp [allocate, le_antisymm hle h0]
  | v :: rest, q, hpos, h0, hle => by
    by_cases hq : q ≤ 0
    · simp [allocate, hq, le_antisymm hq h0]
    · push_neg at hq
      have hmin0 : 0 ≤ q - min v.avail q := by
        have := min_le_right v.avail q; linarith
      have hrest0 : 0 ≤ (rest.map LotView.avail).sum :=
        List.sum_nonneg fun x hx => by
          rcases List.mem_map.mp hx with ⟨w, hw, rfl⟩
          exact le_of_lt (hpos w (List.mem_cons_of_mem v hw))
      have hminle : q - min v.avail q ≤ (rest.map LotView.avail).sum := by
        rcases le_total v.avail q with h | h
        · rw [min_eq_left h]
          simp only [List.map_cons, List.sum_cons] at hle
          linarith
        · rw [min_eq_right h]; simpa using hrest0
      have ih := allocate_sum rest (q - min v.avail q)
        (fun w hw => hpos w (List.mem_cons_of_mem v hw)) hmin0 hminle
      simp only [allocate, if_neg (not_le.mpr hq), List.map_cons, List.sum_cons, ih]
      ring

/-- Every allocation drawn by the loop is strictly positive. -/
theorem allocate_pos : ∀ (lots : List LotView) (q : ℤ),
    (∀ v ∈ lots, 0 < v.avail) → ∀ a ∈ allocate lots q, 0 < a.qty
  | [], _, _, _, h => by simp [allocate] at h
  | v :: rest, q, hpos, a, ha => by
    by_cases hq : q ≤ 0
    · simp [allocate, hq] at ha
    · push_neg at hq
      simp only [allocate, if_neg (not_le.mpr hq), List.mem_cons] at ha
      rcases ha with rfl | ha
      · exact lt_min (hpos v (List.mem_cons_self v rest)) hq
      · exact allocate_pos rest (q - min v.avail q)
          (fun w hw => hpos w (List.mem_cons_of_mem v hw)) a ha

/-- The loop draws from the lots in the order the query returned them:
the issued lot ids are an initial segment of the queried lot ids. -/
theorem allocate_lot_ids : ∀ (lots : List LotView) (q : ℤ),
    (allocate lots q).map LotIssue.lot_id =
      (lots.map LotView.id).take (allocate lots q).length
  | [], q => by simp [allocate]
  | v :: rest, q => by
    by_cases hq : q ≤ 0
    · simp [allocate, hq]
    · simp only [allocate, if_neg hq, List.map_cons, List.length_cons,
        List.take_succ_cons, List.cons.injEq, true_and]
      exact allocate_lot_ids rest (q - min v.avail q)

/-- Every allocation comes from a queried lot and never exceeds its
availability (`min(lot['available'], remaining_qty)`). -/
theorem allocate_from_lots : ∀ (lots : List LotView) (q : ℤ),
    ∀ a ∈ allocate lots q, ∃ v ∈ lots,
      v.id = a.lot_id ∧ v.lot_code = a.lot_code ∧ a.qty ≤ v.avail
  | [], _, _, h => by simp [allocate] at h
  | v :: rest, q, a, ha => by
    by_cases hq : q ≤ 0
    · simp [allocate, hq] at ha
    · simp only [allocate, if_neg hq, List.mem_cons] at ha
      rcases ha with rfl | ha
      · exact ⟨v, List.mem_cons_self v rest, rfl, rfl, min_le_left _ _⟩
      · rcases allocate_from_lots rest (q - min v.avail q) a ha with ⟨w, hw, h⟩
        exact ⟨w, List.mem_cons_of_mem v hw, h⟩

/-! ### Handler characterization lemmas -/

/-- Successful issue: appends one ISSUE row per allocation and one UNRESERVE
row for the full reserved quantity, and marks the reservation ISSUED. -/
theorem issue_inventory_ok {s : State} {rid : Nat} {r : Reservation}
    (hfind : s.reservations.find? (fun x => x.id == rid) = some r)
    (hopen : r.status = .OPEN)
    (hne : get_available_lots s r.item_id ≠ [])
    (hsum : r.qty ≤ ((get_available_lots s r.item_id).map LotView.avail).sum) :
    issue_inventory s rid = .ok
      ({ s with
          ledger := s.ledger ++
            ((allocate (get_available_lots s r.item_id) r.qty).map fun a =>
              Entry.mk r.item_id (some a.lot_id) .ISSUE a.qty (some rid)) ++
            [⟨r.item_id, none, .UNRESERVE, r.qty, some rid⟩],
          reservations := s.reservations.map fun x =>
            if x.id == rid then { x with status := .ISSUED } else x },
       ⟨rid, r.item_id, r.qty, allocate (get_available_lots s r.item_id) r.qty⟩) := by
  rw [issue_inventory, hfind]
  simp only [hopen, ne_eq, not_true_eq_false, if_false, ite_false,
    List.isEmpty_iff, if_neg hne, if_neg (not_lt.mpr hsum)]

/-- A non-OPEN reservation is rejected with RESERVATION_ALREADY_ISSUED. -/
theorem issue_inventory_not_open {s : State} {rid : Nat} {r : Reservation}
    (hfind : s.reservations.find? (fun x => x.id == rid) = some r)
    (hnot : r.status ≠ .OPEN) :
    issue_inventory s rid = .error .RESERVATION_ALREADY_ISSUED := by
  rw [issue_inventory, hfind]
  simp [hnot]

/-- Successful reserve: appends the OPEN reservation and one RESERVE row. -/
theorem reserve_inventory_ok {s : State} {item_id : Nat} {qty : ℤ} {itm : Item}
    (h0 : 0 < qty) (hitem : findItem s item_id = some itm)
    (havail : qty ≤ (calculate_stock s item_id).available)
    (hne : get_available_lots s item_id ≠ []) :
    reserve_inventory s item_id qty = .ok
      ({ s with reservations := s.reservations ++ [⟨s.next_res, item_id, qty, .OPEN⟩],
                ledger := s.ledger ++ [⟨item_id, none, .RESERVE, qty, some s.next_res⟩],
                next_res := s.next_res + 1 },
       s.next_res) := by
  rw [reserve_inventory, if_neg (not_le.mpr h0), hitem]
  simp only [List.isEmpty_iff, if_neg (not_lt.mpr havail), if_neg hne]

/-- Reserve fails INSUFFICIENT_STOCK when `available < qty`. -/
theorem reserve_inventory_insufficient {s : State} {item_id : Nat} {qty : ℤ} {itm : Item}
    (h0 : 0 < qty) (hitem : findItem s item_id = some itm)
    (havail : (calculate_stock s item_id).available < qty) :
    reserve_inventory s item_id qty = .error .INSUFFICIENT_STOCK := by
  rw [reserve_inventory, if_neg (not_le.mpr h0), hitem]
  simp only [if_pos havail]

/-- Reserve fails NO_QC_APPROVED_LOT when the approved-lot query is empty
(and the availability check passed). -/
theorem reserve_inventory_no_qc {s : State} {item_id : Nat} {qty : ℤ} {itm : Item}
    (h0 : 0 < qty) (hitem : findItem s item_id = some itm)
    (havail : qty ≤ (calculate_stock s item_id).available)
    (hnil : get_available_lots s item_id = []) :
    reserve_inventory s item_id qty = .error .NO_QC_APPROVED_LOT := by
  rw [reserve_inventory, if_neg (not_le.mpr h0), hitem]
  simp only [List.isEmpty_iff, if_neg (not_lt.mpr havail), if_pos hnil]

/-- Successful receive: inserts the lot (QUARANTINE iff the item requires QC)
and one RECEIVE row. -/
theorem receive_inventory_ok {s : State} {item_id : Nat} {code : String} {qty : ℤ}
    {itm : Item} (h0 : 0 < qty) (hitem : findItem s item_id = some itm)
    (hfresh : ∀ l ∈ s.lots, l.lot_code ≠ code) :
    receive_inventory s item_id code qty = .ok
      ({ s with
          lots := s.lots ++ [⟨s.next_lot, item_id, code, qty,
            if itm.qc_required then .QUARANTINE else .APPROVED⟩],
          ledger := s.ledger ++ [⟨item_id, some s.next_lot, .RECEIVE, qty, none⟩],
          next_lot := s.next_lot + 1 },
       ⟨s.next_lot, if itm.qc_required then .QUARANTINE else .APPROVED⟩) := by
  have hany : (s.lots.any fun l => l.lot_code == code) = false := by
    simp only [List.any_eq_false, beq_iff_eq]
    exact hfresh
  rw [receive_inventory, if_neg (not_le.mpr h0), hitem]
  simp [hany]

/-- A receive whose lot code already exists anywhere fails DUPLICATE_LOT_CODE. -/
theorem receive_inventory_dup {s : State} {item_id : Nat} {code : String} {qty : ℤ}
    {itm : Item} (h0 : 0 < qty) (hitem : findItem s item_id = some itm)
    (hdup : ∃ l ∈ s.lots, l.lot_code = code) :
    receive_inventory s item_id code qty = .error .DUPLICATE_LOT_CODE := by
  have hany : (s.lots.any fun l => l.lot_code == code) = true := by
    simp only [List.any_eq_true, beq_iff_eq]
    exact hdup
  rw [receive_inventory, if_neg (not_le.mpr h0), hitem]
  simp [hany]

/-- QC update on an existing lot always succeeds and overwrites the status. -/
theorem update_lot_qc_status_ok {s : State} {lot_id : Nat} (d : QcDecision)
    (h : ∃ l ∈ s.lots, l.id = lot_id) :
    update_lot_qc_status s lot_id d = .ok
      { s with lots := s.lots.map fun l =>
          if l.id == lot_id then { l with qc_status := d.toStatus } else l } := by
  have hany : (s.lots.any fun l => l.id == lot_id) = true := by
    simp only [List.any_eq_true, beq_iff_eq]
    exact h
  rw [update_lot_qc_status]
  simp [hany]

/-! ### Aggregate bookkeeping lemmas for the invariant -/

theorem sumReceived_append (item_id : Nat) (l₁ l₂ : List Entry) :
    sumReceived item_id (l₁ ++ l₂) = sumReceived item_id l₁ + sumReceived item_id l₂ :=
  qsum_append _ _ _ _

theorem sumIssued_append (item_id : Nat) (l₁ l₂ : List Entry) :
    sumIssued item_id (l₁ ++ l₂) = sumIssued item_id l₁ + sumIssued item_id l₂ :=
  qsum_append _ _ _ _

theorem openQty_append (item_id : Nat) (l₁ l₂ : List Reservation) :
    openQty item_id (l₁ ++ l₂) = openQty item_id l₁ + openQty item_id l₂ :=
  qsum_append _ _ _ _

theorem sumReceived_singleton (item_id : Nat) (e : Entry) :
    sumReceived item_id [e] =
      if e.item_id == item_id && e.txn_type == TxnType.RECEIVE then e.qty else 0 :=
  qsum_singleton _ _ _

theorem sumIssued_singleton (item_id : Nat) (e : Entry) :
    sumIssued item_id [e] =
      if e.item_id == item_id && e.txn_type == TxnType.ISSUE then e.qty else 0 :=
  qsum_singleton _ _ _

theorem openQty_singleton (item_id : Nat) (r : Reservation) :
    openQty item_id [r] =
      if r.item_id == item_id && r.status == ResStatus.OPEN then r.qty else 0 :=
  qsum_singleton _ _ _

/-- The ISSUE rows appended by an issue contribute their allocation total to
the issued aggregate of the issuing item, and nothing elsewhere. -/
theorem sumIssued_issueRows (item_id itm rid : Nat) (allocs : List LotIssue) :
    sumIssued item_id (allocs.map fun a =>
        Entry.mk itm (some a.lot_id) .ISSUE a.qty (some rid)) =
      if itm == item_id then (allocs.map LotIssue.qty).sum else 0 := by
  induction allocs with
  | nil => simp [sumIssued, qsum_nil]
  | cons a as ih =>
    simp only [List.map_cons]
    rw [show (Entry.mk itm (some a.lot_id) .ISSUE a.qty (some rid) ::
        as.map fun a => Entry.mk itm (some a.lot_id) .ISSUE a.qty (some rid)) =
      [Entry.mk itm (some a.lot_id) .ISSUE a.qty (some rid)] ++
        as.map fun a => Entry.mk itm (some a.lot_id) .ISSUE a.qty (some rid) from rfl]
    rw [sumIssued_append, sumIssued_singleton, ih, List.sum_cons]
    by_cases h : itm == item_id <;> simp [h]

/-- The ISSUE rows appended by an issue never touch the received aggregate. -/
theorem sumReceived_issueRows (item_id itm rid : Nat) (allocs : List LotIssue) :
    sumReceived item_id (allocs.map fun a =>
        Entry.mk itm (some a.lot_id) .ISSUE a.qty (some rid)) = 0 := by
  refine qsum_eq_zero fun e he => ?_
  rcases List.mem_map.mp he with ⟨a, _, rfl⟩
  simp

/-- Marking a reservation ISSUED when no row carries the id is a no-op. -/
theorem markIssued_of_not_mem {rs : List Reservation} {rid : Nat}
    (h : ∀ x ∈ rs, x.id ≠ rid) :
    (rs.map fun x =>
      if x.id == rid then { x with status := ResStatus.ISSUED } else x) = rs := by
  induction rs with
  | nil => rfl
  | cons y ys ih =>
    simp only [List.map_cons]
    rw [if_neg (by simp [h y (List.mem_cons_self y ys)]),
      ih fun x hx => h x (List.mem_cons_of_mem y hx)]

/-- The `UPDATE reservations SET status='ISSUED'` step preserves the ids. -/
theorem markIssued_map_id (rs : List Reservation) (rid : Nat) :
    ((rs.map fun x =>
        if x.id == rid then { x with status := ResStatus.ISSUED } else x).map
      Reservation.id) = rs.map Reservation.id := by
  induction rs with
  | nil => rfl
  | cons y ys ih =>
    simp only [List.map_cons, ih, List.cons.injEq, and_true]
    split <;> rfl

theorem find?_cons_eq {α : Type} (p : α → Bool) (a : α) (l : List α) :
    (a :: l).find? p = if p a then some a else l.find? p := by
  by_cases h : p a <;> simp [List.find?_cons, h]

/-- Marking the (unique, OPEN) reservation `rid` ISSUED removes exactly its
quantity from the OPEN aggregate of its item. -/
theorem openQty_markIssued : ∀ {rs : List Reservation} {rid : Nat} {r : Reservation},
    rs.find? (fun x => x.id == rid) = some r →
    (rs.map Reservation.id).Nodup →
    r.status = ResStatus.OPEN →
    ∀ item_id, openQty item_id
        (rs.map fun x =>
          if x.id == rid then { x with status := ResStatus.ISSUED } else x)
      = openQty item_id rs - (if r.item_id == item_id then r.qty else 0)
  | [], rid, r, hfind, _, _, _ => by simp at hfind
  | y :: ys, rid, r, hfind, hnd, hopen, item_id => by
    simp only [List.map_cons, List.nodup_cons] at hnd
    by_cases hy : (y.id == rid) = true
    · rw [find?_cons_eq, if_pos hy] at hfind
      injection hfind with hfind
      subst hfind
      have htail : (ys.map fun x =>
          if x.id == rid then { x with status := ResStatus.ISSUED } else x) = ys := by
        refine markIssued_of_not_mem fun x hx hid => hnd.1 ?_
        rw [beq_iff_eq.mp hy, ← hid]
        exact List.mem_map_of_mem Reservation.id hx
      rw [show ((y :: ys).map fun x =>
          if x.id == rid then { x with status := ResStatus.ISSUED } else x) =
        (if y.id == rid then { y with status := ResStatus.ISSUED } else y) ::
          (ys.map fun x =>
            if x.id == rid then { x with status := ResStatus.ISSUED } else x) from rfl]
      rw [if_pos hy, htail]
      rw [show ({ y with status := ResStatus.ISSUED } :: ys) =
        [{ y with status := ResStatus.ISSUED }] ++ ys from rfl,
        show (y :: ys) = [y] ++ ys from rfl]
      rw [openQty_append, openQty_append, openQty_singleton, openQty_singleton]
      simp only [hopen]
      by_cases hi : (y.item_id == item_id) = true <;> simp [hi]
    · rw [find?_cons_eq, if_neg hy] at hfind
      have ih := openQty_markIssued hfind hnd.2 hopen item_id
      rw [show ((y :: ys).map fun x =>
          if x.id == rid then { x with status := ResStatus.ISSUED } else x) =
        (if y.id == rid then { y with status := ResStatus.ISSUED } else y) ::
          (ys.map fun x =>
            if x.id == rid then { x with status := ResStatus.ISSUED } else x) from rfl]
      rw [if_neg hy]
      rw [show ∀ z zs, (z :: zs : List Reservation) = [z] ++ zs from fun z zs => rfl]
      rw [show (y :: ys : List Reservation) = [y] ++ ys from rfl]
      rw [openQty_append, openQty_append, ih]
      ring

/-- The inductive invariant: non-negative availability for every item,
reservation ids below the id counter, distinct, with positive quantities. -/
def Inv (s : State) : Prop :=
  (∀ item_id, 0 ≤ (calculate_stock s item_id).available) ∧
  (∀ r ∈ s.reservations, r.id < s.next_res) ∧
  (s.reservations.map Reservation.id).Nodup ∧
  (∀ r ∈ s.reservations, 0 < r.qty)

theorem available_def (s : State) (item_id : Nat) :
    (calculate_stock s item_id).available =
      sumReceived item_id s.ledger - sumIssued item_id s.ledger -
        openQty item_id s.reservations := rfl

/-- Issue fails NO_QC_APPROVED_LOT on an empty approved-lot set. -/
theorem issue_inventory_no_qc {s : State} {rid : Nat} {r : Reservation}
    (hfind : s.reservations.find? (fun x => x.id == rid) = some r)
    (hopen : r.status = .OPEN)
    (hnil : get_available_lots s r.item_id = []) :
    issue_inventory s rid = .error .NO_QC_APPROVED_LOT := by
  rw [issue_inventory, hfind]
  simp [hopen, hnil]

/-- Issue fails INSUFFICIENT_STOCK when the approved lots cannot cover the
reserved quantity. -/
theorem issue_inventory_insufficient {s : State} {rid : Nat} {r : Reservation}
    (hfind : s.reservations.find? (fun x => x.id == rid) = some r)
    (hopen : r.status = .OPEN)
    (hne : get_available_lots s r.item_id ≠ [])
    (hsum : ((get_available_lots s r.item_id).map LotView.avail).sum < r.qty) :
    issue_inventory s rid = .error .INSUFFICIENT_STOCK := by
  rw [issue_inventory, hfind]
  simp only [hopen, ne_eq, not_true_eq_false, if_false, ite_false,
    List.isEmpty_iff, if_neg hne, if_pos hsum]

/-! ### Preservation of the invariant -/

theorem inv_create_item {s s' : State} {c n : String} {q : Bool} {x : Nat}
    (hInv : Inv s) (h : create_item s c n q = .ok (s', x)) : Inv s' := by
  rw [create_item] at h
  split at h
  · exact absurd h (by simp)
  · simp only [Except.ok.injEq, Prod.mk.injEq] at h
    obtain ⟨rfl, -⟩ := h
    exact hInv

theorem inv_setQc {s s' : State} {lot_id : Nat} {d : QcDecision}
    (hInv : Inv s) (h : update_lot_qc_status s lot_id d = .ok s') : Inv s' := by
  rw [update_lot_qc_status] at h
  split at h
  · simp only [Except.ok.injEq] at h
    subst h
    exact hInv
  · exact absurd h (by simp)

theorem inv_receive {s s' : State} {item_id : Nat} {code : String} {qty : ℤ}
    {resp : ReceiveResp} (hInv : Inv s)
    (h : receive_inventory s item_id code qty = .ok (s', resp)) : Inv s' := by
  by_cases h0 : qty ≤ 0
  · rw [receive_inventory, if_pos h0] at h
    exact absurd h (by simp)
  rcases hitm : findItem s item_id with - | itm
  · rw [receive_inventory, if_neg h0, hitm] at h
    exact absurd h (by simp)
  by_cases hdup : ∃ l ∈ s.lots, l.lot_code = code
  · rw [receive_inventory_dup (lt_of_not_ge h0) hitm hdup] at h
    exact absurd h (by simp)
  · push_neg at hdup
    rw [receive_inventory_ok (lt_of_not_ge h0) hitm hdup] at h
    simp only [Except.ok.injEq, Prod.mk.injEq] at h
    obtain ⟨rfl, -⟩ := h
    obtain ⟨h1, h2, h3, h4⟩ := hInv
    refine ⟨?_, h2, h3, h4⟩
    intro iid
    have e1 : sumReceived iid
        (s.ledger ++ [⟨item_id, some s.next_lot, .RECEIVE, qty, none⟩]) =
        sumReceived iid s.ledger + (if item_id == iid then qty else 0) := by
      rw [sumReceived_append, sumReceived_singleton]
      by_cases hc : (item_id == iid) = true <;> simp [hc]
    have e2 : sumIssued iid
        (s.ledger ++ [⟨item_id, some s.next_lot, .RECEIVE, qty, none⟩]) =
        sumIssued iid s.ledger := by
      rw [sumIssued_append, sumIssued_singleton]
      simp
    rw [available_def]
    dsimp only
    rw [e1, e2]
    have ha := h1 iid
    rw [available_def] at ha
    have hq : 0 < qty := lt_of_not_ge h0
    split <;> linarith

theorem inv_reserve {s s' : State} {item_id : Nat} {qty : ℤ} {rid : Nat}
    (hInv : Inv s) (h : reserve_inventory s item_id qty = .ok (s', rid)) : Inv s' := by
  by_cases h0 : qty ≤ 0
  · rw [reserve_inventory, if_pos h0] at h
    exact absurd h (by simp)
  rcases hitm : findItem s item_id with - | itm
  · rw [reserve_inventory, if_neg h0, hitm] at h
    exact absurd h (by simp)
  by_cases havail : (calculate_stock s item_id).available < qty
  · rw [reserve_inventory_insufficient (lt_of_not_ge h0) hitm havail] at h
    exact absurd h (by simp)
  by_cases hnil : get_available_lots s item_id = []
  · rw [reserve_inventory_no_qc (lt_of_not_ge h0) hitm (not_lt.mp havail) hnil] at h
    exact absurd h (by simp)
  rw [reserve_inventory_ok (lt_of_not_ge h0) hitm (not_lt.mp havail) hnil] at h
  simp only [Except.ok.injEq, Prod.mk.injEq] at h
  obtain ⟨rfl, -⟩ := h
  obtain ⟨h1, h2, h3, h4⟩ := hInv
  refine ⟨?_, ?_, ?_, ?_⟩
  · intro iid
    have e1 : sumReceived iid
        (s.ledger ++ [⟨item_id, none, .RESERVE, qty, some s.next_res⟩]) =
        sumReceived iid s.ledger := by
      rw [sumReceived_append, sumReceived_singleton]; simp
    have e2 : sumIssued iid
        (s.ledger ++ [⟨item_id, none, .RESERVE, qty, some s.next_res⟩]) =
        sumIssued iid s.ledger := by
      rw [sumIssued_append, sumIssued_singleton]; simp
    have e3 : openQty iid
        (s.reservations ++ [⟨s.next_res, item_id, qty, .OPEN⟩]) =
        openQty iid s.reservations + (if item_id == iid then qty else 0) := by
      rw [openQty_append, openQty_singleton]
      by_cases hc : (item_id == iid) = true <;> simp [hc]
    rw [available_def]
    dsimp only
    rw [e1, e2, e3]
    have ha := h1 iid
    rw [available_def] at ha
    by_cases hc : (item_id == iid) = true
    · have hii : item_id = iid := beq_iff_eq.mp hc
      subst hii
      have hge := not_lt.mp havail
      rw [available_def] at hge
      simp only [hc, if_true, ite_true]
      linarith
    · simp only [hc, if_false, Bool.false_eq_true, ite_false]
      linarith
  · intro r hr
    dsimp only at hr ⊢
    rcases List.mem_append.mp hr with hr | hr
    · exact Nat.lt_succ_of_lt (h2 r hr)
    · simp only [List.mem_singleton] at hr
      subst hr
      exact Nat.lt_succ_self _
  · dsimp only
    rw [List.map_append]
    refine List.Nodup.append h3 (List.nodup_singleton _) ?_
    intro a ha hb
    simp only [List.map_cons, List.map_nil, List.mem_singleton] at hb
    subst hb
    rcases List.mem_map.mp ha with ⟨r, hr, hid⟩
    exact absurd (hid ▸ h2 r hr) (lt_irrefl _)
  · intro r hr
    rcases List.mem_append.mp hr with hr | hr
    · exact h4 r hr
    · simp only [List.mem_singleton] at hr
      subst hr
      exact lt_of_not_ge h0

theorem inv_issue {s s' : State} {rid : Nat} {resp : IssueResp}
    (hInv : Inv s) (h : issue_inventory s rid = .ok (s', resp)) : Inv s' := by
  rcases hfind : s.reservations.find? (fun x => x.id == rid) with - | r
  · rw [issue_inventory, hfind] at h
    exact absurd h (by simp)
  by_cases hopen : r.status = .OPEN
  swap
  · rw [issue_inventory_not_open hfind hopen] at h
    exact absurd h (by simp)
  by_cases hne : get_available_lots s r.item_id = []
  · rw [issue_inventory_no_qc hfind hopen hne] at h
    exact absurd h (by simp)
  by_cases hsum : ((get_available_lots s r.item_id).map LotView.avail).sum < r.qty
  · rw [issue_inventory_insufficient hfind hopen hne hsum] at h
    exact absurd h (by simp)
  rw [issue_inventory_ok hfind hopen hne (not_lt.mp hsum)] at h
  simp only [Except.ok.injEq, Prod.mk.injEq] at h
  obtain ⟨rfl, -⟩ := h
  obtain ⟨h1, h2, h3, h4⟩ := hInv
  have hrmem : r ∈ s.reservations := List.mem_of_find?_eq_some hfind
  have hrpos : 0 < r.qty := h4 r hrmem
  have hallocsum : ((allocate (get_available_lots s r.item_id) r.qty).map
      LotIssue.qty).sum = r.qty :=
    allocate_sum _ _ (fun v hv => mem_get_available_lots_pos hv)
      (le_of_lt hrpos) (not_lt.mp hsum)
  refine ⟨?_, ?_, ?_, ?_⟩
  · intro iid
    have e1 : sumReceived iid (s.ledger ++
        ((allocate (get_available_lots s r.item_id) r.qty).map fun a =>
          Entry.mk r.item_id (some a.lot_id) .ISSUE a.qty (some rid)) ++
        [⟨r.item_id, none, .UNRESERVE, r.qty, some rid⟩]) =
        sumReceived iid s.ledger := by
      rw [sumReceived_append, sumReceived_append, sumReceived_issueRows,
        sumReceived_singleton]
      simp
    have e2 : sumIssued iid (s.ledger ++
        ((allocate (get_available_lots s r.item_id) r.qty).map fun a =>
          Entry.mk r.item_id (some a.lot_id) .ISSUE a.qty (some rid)) ++
        [⟨r.item_id, none, .UNRESERVE, r.qty, some rid⟩]) =
        sumIssued iid s.ledger + (if r.item_id == iid then r.qty else 0) := by
      rw [sumIssued_append, sumIssued_append, sumIssued_issueRows,
        sumIssued_singleton, hallocsum]
      simp
    have e3 := openQty_markIssued hfind h3 hopen iid
    rw [available_def]
    dsimp only
    rw [e1, e2, e3]
    have ha := h1 iid
    rw [available_def] at ha
    split <;> linarith
  · intro x hx
    rcases List.mem_map.mp hx with ⟨x0, hx0, rfl⟩
    have hid : (if x0.id == rid then { x0 with status := ResStatus.ISSUED }
        else x0).id = x0.id := by
      split <;> rfl
    rw [hid]
    exact h2 x0 hx0
  · rw [markIssued_map_id]
    exact h3
  · intro x hx
    rcases List.mem_map.mp hx with ⟨x0, hx0, rfl⟩
    have hq : (if x0.id == rid then { x0 with status := ResStatus.ISSUED }
        else x0).qty = x0.qty := by
      split <;> rfl
    rw [hq]
    exact h4 x0 hx0

theorem inv_stepOr (s : State) (op : Op) (hInv : Inv s) : Inv (stepOr s op) := by
  cases op with
  | createItem c n q =>
    rw [stepOr]
    rcases h : create_item s c n q with e | ⟨s', x⟩
    · exact hInv
    · exact inv_create_item hInv h
  | receive i c q =>
    rw [stepOr]
    rcases h : receive_inventory s i c q with e | ⟨s', x⟩
    · exact hInv
    · exact inv_receive hInv h
  | reserve i q =>
    rw [stepOr]
    rcases h : reserve_inventory s i q with e | ⟨s', x⟩
    · exact hInv
    · exact inv_reserve hInv h
  | issue r =>
    rw [stepOr]
    rcases h : issue_inventory s r with e | ⟨s', x⟩
    · exact hInv
    · exact inv_issue hInv h
  | setQc l d =>
    rw [stepOr]
    rcases h : update_lot_qc_status s l d with e | s'
    · exact hInv
    · exact inv_setQc hInv h

theorem inv_initState : Inv initState := by
  refine ⟨fun iid => ?_, ?_, ?_, ?_⟩
  · rw [available_def]
    norm_num [initState, sumReceived, sumIssued, openQty, qsum]
  · intro r hr
    simp [initState] at hr
  · simp [initState]
  · intro r hr
    simp [initState] at hr

theorem inv_foldl : ∀ (ops : List Op) (s : State), Inv s → Inv (ops.foldl stepOr s)
  | [], _, h => h
  | op :: rest, s, h => inv_foldl rest (stepOr s op) (inv_stepOr s op h)

theorem inv_runOps (ops : List Op) : Inv (runOps ops) :=
  inv_foldl ops initState inv_initState

/-! ### The claims -/

/-- C1: for every item, after every sequence of (successful or rolled-back)
operations, the derived quantities satisfy
`available = on_hand − Σ qty of OPEN reservations` and `available ≥ 0`:
availability never goes negative. -/
theorem C1_availability_invariant (ops : List Op) (item_id : Nat) :
    (calculate_stock (runOps ops) item_id).available =
      (calculate_stock (runOps ops) item_id).on_hand -
        openQty item_id (runOps ops).reservations ∧
    0 ≤ (calculate_stock (runOps ops) item_id).available :=
  ⟨rfl, (inv_runOps ops).1 item_id⟩

/-- C2 counterexample: in `baState` lot 0 (code "B") was created before lot 1
(code "A"), yet `get_available_lots` returns lot 1 first — the later-created
lot precedes the earlier-created one, so the allocation sequence is NOT in
lot-creation (receipt) order. -/
theorem C2_counterexample :
    baState.lots.map Lot.id = [0, 1] ∧
    baState.lots.map Lot.lot_code = ["B", "A"] ∧
    (get_available_lots baState 0).map LotView.id = [1, 0] := by
  refine ⟨rfl, rfl, ?_⟩
  decide

/-- C2 (amended): the sequence of APPROVED lots used by allocation is ordered
lexicographically by `lot_code` ascending (`ORDER BY l.lot_code ASC`), not by
lot-creation order; creation order is respected only when the codes happen to
be named in receipt order. -/
theorem C2_amended_order_by_code (s : State) (item_id : Nat) :
    (get_available_lots s item_id).Pairwise viewLe :=
  get_available_lots_sorted s item_id

/-- C5: issuing a reservation whose status is not OPEN always fails with
RESERVATION_ALREADY_ISSUED, and the state — ledger and all derived
quantities — is exactly as before the attempt. -/
theorem C5_issue_terminal (s : State) (rid : Nat) (r : Reservation)
    (hfind : s.reservations.find? (fun x => x.id == rid) = some r)
    (hnot : r.status ≠ .OPEN) :
    issue_inventory s rid = .error .RESERVATION_ALREADY_ISSUED ∧
    stepOr s (.issue rid) = s := by
  have h := issue_inventory_not_open hfind hnot
  refine ⟨h, ?_⟩
  simp only [stepOr]
  rw [h]

/-- C5 witness: in `simpleIssued` reservation 0 is ISSUED; a second issue
fails RESERVATION_ALREADY_ISSUED and leaves the state unchanged. -/
theorem C5_issue_terminal_witness :
    issue_inventory simpleIssued 0 = .error .RESERVATION_ALREADY_ISSUED ∧
    stepOr simpleIssued (.issue 0) = simpleIssued :=
  C5_issue_terminal simpleIssued 0 ⟨0, 0, 30, .ISSUED⟩ (by decide) (by decide)

/-- C8: lot codes are globally unique: receiving with a lot code that already
exists on any lot (of any item) fails with DUPLICATE_LOT_CODE and leaves the
state — the first lot and its RECEIVE entry included — exactly unchanged. -/
theorem C8_duplicate_lot_code (s : State) (item_id : Nat) (code : String)
    (qty : ℤ) (itm : Item) (h0 : 0 < qty) (hitm : findItem s item_id = some itm)
    (hdup : ∃ l ∈ s.lots, l.lot_code = code) :
    receive_inventory s item_id code qty = .error .DUPLICATE_LOT_CODE ∧
    stepOr s (.receive item_id code qty) = s := by
  have h := receive_inventory_dup h0 hitm hdup
  refine ⟨h, ?_⟩
  simp only [stepOr]
  rw [h]

/-- C8 witness: `dupCodeState` holds lot code "L1" on item 0; receiving "L1"
into the other item 1 fails DUPLICATE_LOT_CODE with no state change. -/
theorem C8_duplicate_lot_code_witness :
    receive_inventory dupCodeState 1 "L1" 7 = .error .DUPLICATE_LOT_CODE ∧
    stepOr dupCodeState (.receive 1 "L1" 7) = dupCodeState :=
  C8_duplicate_lot_code dupCodeState 1 "L1" 7 ⟨1, "V", "v", false⟩
    (by decide) (by decide) (by decide)

/-- C9 counterexample: lot 0 of `approvedLotState` is APPROVED, yet the QC
update to REJECTED succeeds and the lot ends REJECTED — APPROVED is not a
terminal status in the code. -/
theorem C9_counterexample :
    approvedLotState.lots.map Lot.qc_status = [QcStatus.APPROVED] ∧
    (stepOr approvedLotState (.setQc 0 .REJECTED)).lots.map Lot.qc_status =
      [QcStatus.REJECTED] := by
  constructor
  · decide
  · decide

/-- C9 (amended): `update_lot_qc_status` performs no transition-legality
check: for any existing lot and any requested decision (APPROVED or
REJECTED), it succeeds and overwrites the lot's status with the requested
value regardless of the current status; transitions out of APPROVED and out
of REJECTED are therefore possible. -/
theorem C9_amended_overwrite (s : State) (lot_id : Nat) (d : QcDecision)
    (h : ∃ l ∈ s.lots, l.id = lot_id) :
    ∃ s', update_lot_qc_status s lot_id d = .ok s' ∧
      ∀ l ∈ s'.lots, l.id = lot_id → l.qc_status = d.toStatus := by
  refine ⟨_, update_lot_qc_status_ok d h, ?_⟩
  intro l hl hid
  rcases List.mem_map.mp hl with ⟨l0, hl0, rfl⟩
  by_cases hc : (l0.id == lot_id) = true
  · rw [if_pos hc]
  · rw [if_neg hc] at hid ⊢
    exact absurd (beq_iff_eq.mpr hid) hc

/-- C9 amended witness: the APPROVED lot of `approvedLotState` can be
overwritten to REJECTED. -/
theorem C9_amended_overwrite_witness :
    ∃ s', update_lot_qc_status approvedLotState 0 .REJECTED = .ok s' ∧
      ∀ l ∈ s'.lots, l.id = 0 → l.qc_status = QcDecision.REJECTED.toStatus :=
  C9_amended_overwrite approvedLotState 0 .REJECTED (by decide)

/-- C10: when the availability check passes but every APPROVED lot of the
item is fully issued (availability ≤ 0), reserve fails NO_QC_APPROVED_LOT —
not INSUFFICIENT_STOCK — because the lot query keeps only rows with strictly
positive availability, even though APPROVED lots exist. -/
theorem C10_exhausted_approved (s : State) (item_id : Nat) (qty : ℤ)
    (itm : Item) (h0 : 0 < qty) (hitm : findItem s item_id = some itm)
    (havail : qty ≤ (calculate_stock s item_id).available)
    (hexh : ∀ l ∈ s.lots, l.item_id = item_id → l.qc_status = QcStatus.APPROVED →
      l.received_qty - lotIssued l.id s.ledger ≤ 0) :
    reserve_inventory s item_id qty = .error .NO_QC_APPROVED_LOT ∧
    reserve_inventory s item_id qty ≠ .error .INSUFFICIENT_STOCK := by
  have h := reserve_inventory_no_qc h0 hitm havail
    (get_available_lots_eq_nil_iff.mpr hexh)
  refine ⟨h, ?_⟩
  rw [h]
  intro hcontra
  exact absurd (Except.error.inj hcontra) (by decide)

/-- C3: issuing walks the approved lots in the queried FIFO order — the
issued lot ids are an initial segment of the queried lot-id sequence —
allocating `min(lot_available, remaining)` from each (never exceeding a
lot's availability, never zero; zero-availability lots are already filtered
out by the query), and the total issued is exactly the reserved quantity;
concretely, for lots A(30), B(40), C(30) received in that order and a
reservation of 80, the per-lot issues are [A:30, B:40, C:10]. -/
theorem C3_fifo_allocation (s : State) (rid : Nat) (r : Reservation)
    (hfind : s.reservations.find? (fun x => x.id == rid) = some r)
    (hopen : r.status = .OPEN)
    (hne : get_available_lots s r.item_id ≠ [])
    (h0 : 0 ≤ r.qty)
    (hsum : r.qty ≤ ((get_available_lots s r.item_id).map LotView.avail).sum) :
    ∃ s' resp, issue_inventory s rid = .ok (s', resp) ∧
      resp.lots_issued = allocate (get_available_lots s r.item_id) r.qty ∧
      (resp.lots_issued.map LotIssue.qty).sum = r.qty ∧
      (∀ a ∈ resp.lots_issued, 0 < a.qty ∧
        ∃ v ∈ get_available_lots s r.item_id,
          v.id = a.lot_id ∧ v.lot_code = a.lot_code ∧ a.qty ≤ v.avail) ∧
      resp.lots_issued.map LotIssue.lot_id =
        ((get_available_lots s r.item_id).map LotView.id).take
          resp.lots_issued.length ∧
      (issue_inventory fifoState 0).map (fun p => p.2.lots_issued) =
        .ok [⟨0, "A", 30⟩, ⟨1, "B", 40⟩, ⟨2, "C", 10⟩] := by
  refine ⟨_, _, issue_inventory_ok hfind hopen hne hsum, rfl, ?_, ?_, ?_, ?_⟩
  · exact allocate_sum _ _ (fun v hv => mem_get_available_lots_pos hv) h0 hsum
  · intro a ha
    exact ⟨allocate_pos _ _ (fun v hv => mem_get_available_lots_pos hv) a ha,
      allocate_from_lots _ _ a ha⟩
  · exact allocate_lot_ids _ _
  · decide

/-- C3 witness: issuing the 80-unit reservation of `fifoState` succeeds and
issues exactly 80 units in total. -/
theorem C3_fifo_allocation_witness :
    ∃ s' resp, issue_inventory fifoState 0 = .ok (s', resp) ∧
      (resp.lots_issued.map LotIssue.qty).sum = (80 : ℤ) := by
  obtain ⟨s', resp, hok, -, hsum, -⟩ :=
    C3_fifo_allocation fifoState 0 ⟨0, 0, 80, .OPEN⟩ (by decide) rfl
      (by decide) (by decide) (by decide)
  exact ⟨s', resp, hok, hsum⟩

/-- C4 counterexample: in `partialApprovedState` the approved lots cover only
10 < 50, yet reserving 50 succeeds (raw on-hand includes a QUARANTINE lot of
100) — reservation creation does not verify approved-lot coverage of the
requested quantity and has no InsufficientApprovedStock failure. -/
theorem C4_counterexample :
    ((get_available_lots partialApprovedState 0).map LotView.avail).sum = 10 ∧
    (reserve_inventory partialApprovedState 0 50).isOk = true := by
  constructor
  · decide
  · decide

/-- C4 (amended): reservation creation checks only item-level availability
and non-emptiness of the positive-availability approved-lot set — with a
valid item and qty > 0, reserve succeeds iff `qty ≤ available` and the
approved-lot query is non-empty, failing INSUFFICIENT_STOCK or
NO_QC_APPROVED_LOT respectively; it does not run the issue-side coverage
check `Σ approved availability ≥ qty`. -/
theorem C4_amended_reserve_checks (s : State) (item_id : Nat) (qty : ℤ)
    (itm : Item) (h0 : 0 < qty) (hitm : findItem s item_id = some itm) :
    ((reserve_inventory s item_id qty).isOk = true ↔
      (qty ≤ (calculate_stock s item_id).available ∧
        get_available_lots s item_id ≠ [])) ∧
    ((calculate_stock s item_id).available < qty →
      reserve_inventory s item_id qty = .error .INSUFFICIENT_STOCK) ∧
    (qty ≤ (calculate_stock s item_id).available →
      get_available_lots s item_id = [] →
      reserve_inventory s item_id qty = .error .NO_QC_APPROVED_LOT) := by
  refine ⟨⟨?_, ?_⟩, fun hlt => reserve_inventory_insufficient h0 hitm hlt,
    fun hle hnil => reserve_inventory_no_qc h0 hitm hle hnil⟩
  · intro hok
    by_cases hlt : (calculate_stock s item_id).available < qty
    · rw [reserve_inventory_insufficient h0 hitm hlt] at hok
      exact absurd hok (by decide)
    · by_cases hnil : get_available_lots s item_id = []
      · rw [reserve_inventory_no_qc h0 hitm (not_lt.mp hlt) hnil] at hok
        exact absurd hok (by decide)
      · exact ⟨not_lt.mp hlt, hnil⟩
  · rintro ⟨hle, hne⟩
    rw [reserve_inventory_ok h0 hitm hle hne]
    rfl

/-- C4 amended witness: the under-covered reserve of 50 in
`partialApprovedState` succeeds via the amended characterization. -/
theorem C4_amended_reserve_checks_witness :
    (reserve_inventory partialApprovedState 0 50).isOk = true :=
  (C4_amended_reserve_checks partialApprovedState 0 50 ⟨0, "Q", "q", true⟩
    (by decide) (by decide)).1.mpr ⟨by decide, by decide⟩

/-- C6: a successful issue appends one ISSUE row per allocated lot, each
tagged with the reservation id, then exactly one UNRESERVE row for the full
reserved quantity, and sets the reservation status to ISSUED; concretely
(item with qc_required=false, receive 100, reserve 30): the summary goes
from {on_hand:100, reserved:30, available:70} to {on_hand:70, reserved:0,
available:70}, and a following reserve of 1000 fails INSUFFICIENT_STOCK. -/
theorem C6_issue_effects (s : State) (rid : Nat) (r : Reservation)
    (hfind : s.reservations.find? (fun x => x.id == rid) = some r)
    (hopen : r.status = .OPEN)
    (hne : get_available_lots s r.item_id ≠ [])
    (hsum : r.qty ≤ ((get_available_lots s r.item_id).map LotView.avail).sum) :
    ∃ s' resp, issue_inventory s rid = .ok (s', resp) ∧
      s'.ledger = s.ledger ++
        (resp.lots_issued.map fun a =>
          Entry.mk r.item_id (some a.lot_id) .ISSUE a.qty (some rid)) ++
        [⟨r.item_id, none, .UNRESERVE, r.qty, some rid⟩] ∧
      s'.reservations = s.reservations.map (fun x =>
        if x.id == rid then { x with status := .ISSUED } else x) ∧
      calculate_stock simpleState 0 = ⟨100, 30, 70⟩ ∧
      calculate_stock simpleIssued 0 = ⟨70, 0, 70⟩ ∧
      reserve_inventory simpleIssued 0 1000 = .error .INSUFFICIENT_STOCK := by
  refine ⟨_, _, issue_inventory_ok hfind hopen hne hsum, rfl, rfl, ?_, ?_, ?_⟩
  · decide
  · decide
  · decide

/-- C6 witness: issuing reservation 0 of `simpleState` succeeds with the
stated ledger shape. -/
theorem C6_issue_effects_witness :
    ∃ s' resp, issue_inventory simpleState 0 = .ok (s', resp) ∧
      s'.reservations = simpleState.reservations.map (fun x =>
        if x.id == 0 then { x with status := .ISSUED } else x) := by
  obtain ⟨s', resp, hok, -, hres, -⟩ :=
    C6_issue_effects simpleState 0 ⟨0, 0, 30, .OPEN⟩ (by decide) rfl
      (by decide) (by decide)
  exact ⟨s', resp, hok, hres⟩

/-- C7 counterexample: with only a QUARANTINE lot of 50 on the item, a
reserve request of 100 fails INSUFFICIENT_STOCK — not NO_QC_APPROVED_LOT —
so not every reserve request against the quarantined item fails with
NoQcApprovedLot. -/
theorem C7_counterexample :
    quarState.lots.map Lot.qc_status = [QcStatus.QUARANTINE] ∧
    reserve_inventory quarState 0 100 = .error .INSUFFICIENT_STOCK := by
  constructor
  · decide
  · decide

/-- C7 (amended): receiving into a qc_required item creates the lot in
QUARANTINE; while the item has no APPROVED lot, every reserve request with
0 < qty ≤ available fails NO_QC_APPROVED_LOT (requests beyond availability
fail INSUFFICIENT_STOCK first); after the lot is set APPROVED, reserving 10
of the received 50 succeeds. -/
theorem C7_amended_qc_gate (s : State) (item_id : Nat) (qty : ℤ) (itm : Item)
    (h0 : 0 < qty) (hitm : findItem s item_id = some itm)
    (havail : qty ≤ (calculate_stock s item_id).available)
    (hnoap : ∀ l ∈ s.lots, l.item_id = item_id →
      l.qc_status ≠ QcStatus.APPROVED) :
    reserve_inventory s item_id qty = .error .NO_QC_APPROVED_LOT ∧
    (∀ (s₂ : State) (iid₂ : Nat) (code₂ : String) (qty₂ : ℤ) (itm₂ : Item),
      0 < qty₂ → findItem s₂ iid₂ = some itm₂ →
      (∀ l ∈ s₂.lots, l.lot_code ≠ code₂) → itm₂.qc_required = true →
      ∃ s₂', receive_inventory s₂ iid₂ code₂ qty₂ =
        .ok (s₂', ⟨s₂.next_lot, QcStatus.QUARANTINE⟩)) ∧
    reserve_inventory quarState 0 10 = .error .NO_QC_APPROVED_LOT ∧
    quarApproved.lots.map Lot.qc_status = [QcStatus.APPROVED] ∧
    (reserve_inventory quarApproved 0 10).isOk = true := by
  refine ⟨?_, ?_, ?_, ?_, ?_⟩
  · exact reserve_inventory_no_qc h0 hitm havail
      (get_available_lots_eq_nil_iff.mpr fun l hl hi ha =>
        absurd ha (hnoap l hl hi))
  · intro s₂ iid₂ code₂ qty₂ itm₂ h02 hitm₂ hfresh₂ hqc₂
    have h := receive_inventory_ok h02 hitm₂ hfresh₂
    rw [hqc₂] at h
    exact ⟨_, h⟩
  · decide
  · decide
  · decide

/-- C7 amended witness: reserving 10 against the quarantined-only item of
`quarState` fails NO_QC_APPROVED_LOT. -/
theorem C7_amended_qc_gate_witness :
    reserve_inventory quarState 0 10 = .error .NO_QC_APPROVED_LOT :=
  (C7_amended_qc_gate quarState 0 10 ⟨0, "Q", "q", true⟩ (by decide)
    (by decide) (by decide) (by decide)).1

/-- C10 witness: in `exhaustedState` an APPROVED lot exists (A, fully
issued), a QUARANTINE lot keeps on-hand high, and reserving 10 reports
NO_QC_APPROVED_LOT. -/
theorem C10_exhausted_approved_witness :
    (exhaustedState.lots.map Lot.qc_status =
      [QcStatus.APPROVED, QcStatus.QUARANTINE]) ∧
    (calculate_stock exhaustedState 0).available = 100 ∧
    reserve_inventory exhaustedState 0 10 = .error .NO_QC_APPROVED_LOT :=
  ⟨by decide, by decide,
    (C10_exhausted_approved exhaustedState 0 10 ⟨0, "Q", "q", true⟩
      (by decide) (by decide) (by decide) (by decide)).1⟩

end Inventory
